import Mathlib

/-!
Verification of the task-manager board presenter (`src/view/task-view.js` and the
board presenter it is bundled with) against its natural-language specification.

The JavaScript source is embedded shallowly: the presenter's mutable fields become
a `BoardState` record, each method becomes a state-transforming function, and the
asynchronous `handleViewAction` becomes a function parameterised by the outcome of
the awaited model operation.  External collaborators that are not part of the
source tree (`utils/task.js`, `utils/filter.js`, `const.js`, the `he` encoder, the
task models and the item presenters) are modelled from the specification, each one
marked as such in its doc comment.
-/

namespace TaskManager

/-- Modelled from the spec: the filter categories of `const.js` (missing from the
source tree); the spec lists All, Favorites, Repeating, Overdue, Archive. -/
inductive FilterType where
  | ALL
  | OVERDUE
  | FAVORITES
  | REPEATING
  | ARCHIVE
deriving DecidableEq

/-- Modelled from the spec: the sort modes of `const.js` (missing from the source
tree); the board presenter uses `DEFAULT`, `DATE_UP`, `DATE_DOWN`. -/
inductive SortType where
  | DEFAULT
  | DATE_UP
  | DATE_DOWN
deriving DecidableEq

/-- Modelled from the spec: the update-notification kinds of `const.js` (missing
from the source tree); the board presenter handles `INIT`, `PATCH`, `MINOR`,
`MAJOR`. -/
inductive UpdateType where
  | INIT
  | PATCH
  | MINOR
  | MAJOR
deriving DecidableEq

/-- Modelled from the spec: the user action kinds of `const.js` (missing from the
source tree); the board presenter handles `UPDATE_TASK`, `ADD_TASK`,
`DELETE_TASK`. -/
inductive UserAction where
  | UPDATE_TASK
  | ADD_TASK
  | DELETE_TASK
deriving DecidableEq

/-- The task record of the data model.  Due dates are points in time (embedded as
integers), absence meaning "no deadline"; `repeating` is the list of weekday
flags. -/
structure Task where
  id : Nat
  description : String
  dueDate : Option Int
  repeating : List Bool
  color : String
  isArchive : Bool
  isFavorite : Bool
deriving DecidableEq

/-- Modelled from the spec: `isTaskRepeating` of `utils/task.js` (missing from the
source tree); a task repeats iff at least one weekday flag is set. -/
def isTaskRepeating (repeating : List Bool) : Bool :=
  repeating.any (fun b => b)

/-- Modelled from the spec: `isTaskExpired` of `utils/task.js` (missing from the
source tree); a due date is expired iff it is present and lies before the current
time. -/
def isTaskExpired (now : Int) (dueDate : Option Int) : Bool :=
  match dueDate with
  | none => false
  | some d => d < now

/-- Modelled from the spec: `humanizeTaskDueDate` of `utils/task.js` (missing from
the source tree); formats a present due date and renders an absent one as the
empty string.  The concrete date format is irrelevant to the verified claims. -/
def humanizeTaskDueDate (dueDate : Option Int) : String :=
  match dueDate with
  | none => ""
  | some d => toString d

/-- Modelled from the spec: the `sortTaskUp` comparator of `utils/task.js`
(missing from the source tree), embedded as the boolean "less or equal" relation
used by the stable sort: ascending by due date, an absent due date treated as
greatest (sorted last). -/
def sortTaskUp (a b : Task) : Bool :=
  match a.dueDate, b.dueDate with
  | none, none => true
  | none, some _ => false
  | some _, none => true
  | some x, some y => x ≤ y

/-- Modelled from the spec: the `sortTaskDown` comparator of `utils/task.js`
(missing from the source tree), embedded as the boolean "less or equal" relation
used by the stable sort: descending by due date, an absent due date still treated
as greatest (sorted last in both directions). -/
def sortTaskDown (a b : Task) : Bool :=
  match a.dueDate, b.dueDate with
  | none, none => true
  | none, some _ => false
  | some _, none => true
  | some x, some y => y ≤ x

/-- Modelled from the spec: the predicate of each filter category of
`utils/filter.js` (missing from the source tree).  All admits every task;
Favorites admits favorites; Repeating admits repeating tasks; Overdue admits
expired tasks; Archive admits archived tasks. -/
def filterPred (f : FilterType) (now : Int) (t : Task) : Bool :=
  match f with
  | FilterType.ALL => true
  | FilterType.OVERDUE => isTaskExpired now t.dueDate
  | FilterType.FAVORITES => t.isFavorite
  | FilterType.REPEATING => isTaskRepeating t.repeating
  | FilterType.ARCHIVE => t.isArchive

/-- Modelled from the spec: the `filter` map of `utils/filter.js` (missing from
the source tree): each category maps the collection to the tasks satisfying the
category's predicate. -/
def filter (f : FilterType) (now : Int) (tasks : List Task) : List Task :=
  tasks.filter (filterPred f now)

/-- Modelled from the spec: the `he.encode` HTML entity encoder applied to one
character (the `he` library is an external dependency); the special characters
are replaced by entity references, every other character is kept. -/
def encodeChar (c : Char) : String :=
  if c = Char.ofNat 38 then "&amp;"
  else if c = Char.ofNat 60 then "&lt;"
  else if c = Char.ofNat 62 then "&gt;"
  else if c = Char.ofNat 34 then "&quot;"
  else if c = Char.ofNat 39 then "&#x27;"
  else String.singleton c

/-- Modelled from the spec: `he.encode`, the encoding function through which the
task description is rendered. -/
def heEncode (s : String) : String :=
  String.join (s.toList.map encodeChar)

/-- The task card template of `src/view/task-view.js` (`createTaskTemplate`).
String interpolation becomes explicit concatenation; the current time, implicit
in the JavaScript via `dayjs()`, is an explicit parameter. -/
def createTaskTemplate (now : Int) (task : Task) : String :=
  let date := humanizeTaskDueDate task.dueDate
  let deadlineClassName := if isTaskExpired now task.dueDate then "card--deadline" else ""
  let repeatClassName := if isTaskRepeating task.repeating then "card--repeat" else ""
  let archiveClassName :=
    if task.isArchive then "card__btn--archive card__btn--disabled" else "card__btn--archive"
  let favoriteClassName :=
    if task.isFavorite then "card__btn--favorites card__btn--disabled" else "card__btn--favorites"
  "<article class=\"card card--" ++ task.color ++ " " ++ deadlineClassName ++ " "
    ++ repeatClassName ++ "\">\n"
    ++ "<div class=\"card__form\">\n<div class=\"card__inner\">\n<div class=\"card__control\">\n"
    ++ "<button type=\"button\" class=\"card__btn card__btn--edit\">\nedit\n</button>\n"
    ++ "<button type=\"button\" class=\"card__btn " ++ archiveClassName ++ "\">\narchive\n</button>\n"
    ++ "<button\ntype=\"button\"\nclass=\"card__btn " ++ favoriteClassName ++ "\"\n>\nfavorites\n</button>\n"
    ++ "</div>\n\n<div class=\"card__color-bar\">\n"
    ++ "<svg class=\"card__color-bar-wave\" width=\"100%\" height=\"10\">\n"
    ++ "<use xlink:href=\"#wave\"></use>\n</svg>\n</div>\n\n"
    ++ "<div class=\"card__textarea-wrap\">\n<p class=\"card__text\">"
    ++ heEncode task.description
    ++ "</p>\n</div>\n\n"
    ++ "<div class=\"card__settings\">\n<div class=\"card__details\">\n<div class=\"card__dates\">\n"
    ++ "<div class=\"card__date-deadline\">\n<p class=\"card__input-deadline-wrap\">\n"
    ++ "<span class=\"card__date\">" ++ date ++ "</span>\n"
    ++ "</p>\n</div>\n</div>\n</div>\n</div>\n</div>\n</div>\n</article>"

/-- The markup of the card that precedes the escaped description; it depends on
every task field except the description. -/
def cardPre (now : Int) (task : Task) : String :=
  let deadlineClassName := if isTaskExpired now task.dueDate then "card--deadline" else ""
  let repeatClassName := if isTaskRepeating task.repeating then "card--repeat" else ""
  let archiveClassName :=
    if task.isArchive then "card__btn--archive card__btn--disabled" else "card__btn--archive"
  let favoriteClassName :=
    if task.isFavorite then "card__btn--favorites card__btn--disabled" else "card__btn--favorites"
  "<article class=\"card card--" ++ task.color ++ " " ++ deadlineClassName ++ " "
    ++ repeatClassName ++ "\">\n"
    ++ "<div class=\"card__form\">\n<div class=\"card__inner\">\n<div class=\"card__control\">\n"
    ++ "<button type=\"button\" class=\"card__btn card__btn--edit\">\nedit\n</button>\n"
    ++ "<button type=\"button\" class=\"card__btn " ++ archiveClassName ++ "\">\narchive\n</button>\n"
    ++ "<button\ntype=\"button\"\nclass=\"card__btn " ++ favoriteClassName ++ "\"\n>\nfavorites\n</button>\n"
    ++ "</div>\n\n<div class=\"card__color-bar\">\n"
    ++ "<svg class=\"card__color-bar-wave\" width=\"100%\" height=\"10\">\n"
    ++ "<use xlink:href=\"#wave\"></use>\n</svg>\n</div>\n\n"
    ++ "<div class=\"card__textarea-wrap\">\n<p class=\"card__text\">"

/-- The markup of the card that follows the escaped description; it depends only
on the due date. -/
def cardSuf (task : Task) : String :=
  let date := humanizeTaskDueDate task.dueDate
  "</p>\n</div>\n\n"
    ++ "<div class=\"card__settings\">\n<div class=\"card__details\">\n<div class=\"card__dates\">\n"
    ++ "<div class=\"card__date-deadline\">\n<p class=\"card__input-deadline-wrap\">\n"
    ++ "<span class=\"card__date\">" ++ date ++ "</span>\n"
    ++ "</p>\n</div>\n</div>\n</div>\n</div>\n</div>\n</div>\n</article>"

/-- The `TASK_COUNT_PER_STEP` constant of the board presenter: the base
pagination size and the load-more increment. -/
def TASK_COUNT_PER_STEP : Nat := 8

/-- The state of the board presenter together with the state of its collaborators
that the presenter observes.  `modelTasks` is `#tasksModel.tasks`, `filterM` is
`#filterModel.filter`, `now` the current time (constant during a run);
`taskPresenter` is the id-keyed presenter map, `renderedItems` the cards attached
to the task list in order, `taskNewActive` whether the creation form is open, and
the `Shown` flags record which auxiliary components are attached. -/
structure BoardState where
  now : Int
  modelTasks : List Task
  filterM : FilterType
  renderedTaskCount : Nat
  currentSortType : SortType
  filterType : FilterType
  isLoading : Bool
  taskPresenter : List (Nat × Task)
  taskNewActive : Bool
  renderedItems : List Task
  sortShown : Bool
  loadingShown : Bool
  noTaskShown : Bool
  loadMoreShown : Bool
deriving DecidableEq

/-- The sort step of the `tasks` getter: the `switch` on `#currentSortType`.
JavaScript's `Array.prototype.sort` is a stable sort (ES2019), embedded as
`List.mergeSort` over the comparator's "less or equal" relation; `DEFAULT` falls
through and leaves the filtered sequence untouched. -/
def applySort (st : SortType) (tasks : List Task) : List Task :=
  match st with
  | SortType.DATE_UP => tasks.mergeSort sortTaskUp
  | SortType.DATE_DOWN => tasks.mergeSort sortTaskDown
  | SortType.DEFAULT => tasks

/-- The `tasks` getter of the board presenter: records the active filter in
`#filterType`, filters the full collection, and applies the active sort mode.
Returns the derived sequence together with the updated presenter state. -/
def tasksGet (s : BoardState) : List Task × BoardState :=
  let s2 := { s with filterType := s.filterM }
  let filteredTasks := filter s.filterM s.now s.modelTasks
  (applySort s.currentSortType filteredTasks, s2)

/-- The length of the filtered task sequence; by stability of the length under
sorting this is the length of the derived visible sequence. -/
def derivedLen (s : BoardState) : Nat :=
  (filter s.filterM s.now s.modelTasks).length

/-- `Map.prototype.set` on the id-keyed presenter map, embedded on association
lists. -/
def mapSet (m : List (Nat × Task)) (id : Nat) (t : Task) : List (Nat × Task) :=
  match m with
  | [] => [(id, t)]
  | (k, v) :: rest => if k = id then (k, t) :: rest else (k, v) :: mapSet rest id t

/-- `#renderTask`: creates a presenter for the task, initialises it (attaching
the card to the task list) and records it in the presenter map. -/
def renderTask (s : BoardState) (t : Task) : BoardState :=
  { s with
    renderedItems := s.renderedItems ++ [t]
    taskPresenter := mapSet s.taskPresenter t.id t }

/-- `#renderTasks`: renders each task of the list in order. -/
def renderTasks (s : BoardState) (tasks : List Task) : BoardState :=
  tasks.foldl renderTask s

/-- `#renderBoard`: renders the loading stub while loading, the empty-state
placeholder when the derived sequence is empty, and otherwise the sort control,
the first `min taskCount #renderedTaskCount` cards, and the load-more control
when more tasks remain. -/
def renderBoard (s : BoardState) : BoardState :=
  if s.isLoading then
    { s with loadingShown := true }
  else
    let p := tasksGet s
    let tasks := p.1
    let s1 := p.2
    let taskCount := tasks.length
    if taskCount = 0 then
      { s1 with noTaskShown := true }
    else
      let s2 := { s1 with sortShown := true }
      let s3 := renderTasks s2 (tasks.take (min taskCount s2.renderedTaskCount))
      if s3.renderedTaskCount < taskCount then { s3 with loadMoreShown := true } else s3

/-- `#clearBoard`: destroys the creation form and every item presenter, detaches
the sort, loading, load-more and empty-state components, then either resets
`#renderedTaskCount` to the base pagination size or clamps it to the new derived
sequence length, and optionally resets the sort mode. -/
def clearBoard (resetRenderedTaskCount resetSortType : Bool) (s : BoardState) : BoardState :=
  let p := tasksGet s
  let taskCount := p.1.length
  let s1 := p.2
  let s2 := { s1 with
    taskNewActive := false
    taskPresenter := []
    renderedItems := []
    sortShown := false
    loadingShown := false
    loadMoreShown := false
    noTaskShown := false }
  let s3 :=
    if resetRenderedTaskCount then
      { s2 with renderedTaskCount := TASK_COUNT_PER_STEP }
    else
      { s2 with renderedTaskCount := min taskCount s2.renderedTaskCount }
  if resetSortType then { s3 with currentSortType := SortType.DEFAULT } else s3

/-- `#handleLoadMoreButtonClick`: reveals the next pagination step of the derived
sequence (bounded by its length), renders exactly the newly revealed slice, and
removes the load-more control once everything is revealed. -/
def handleLoadMoreButtonClick (s : BoardState) : BoardState :=
  let p := tasksGet s
  let tasks := p.1
  let s1 := p.2
  let taskCount := tasks.length
  let newRenderedTaskCount := min taskCount (s1.renderedTaskCount + TASK_COUNT_PER_STEP)
  let revealed := (tasks.drop s1.renderedTaskCount).take (newRenderedTaskCount - s1.renderedTaskCount)
  let s2 := renderTasks s1 revealed
  let s3 := { s2 with renderedTaskCount := newRenderedTaskCount }
  if taskCount ≤ s3.renderedTaskCount then { s3 with loadMoreShown := false } else s3

/-- The in-place replacement of one task by id: the patched collection after the
model updated a task, and also what `presenter.init(data)` re-renders. -/
def patchById (tasks : List Task) (t : Task) : List Task :=
  tasks.map (fun x => if x.id = t.id then t else x)

/-- `#handleModelEvent`: dispatch on the update-notification kind.  `PATCH`
re-initialises the presenter of the changed task in place; `MINOR` clears and
re-renders; `MAJOR` clears with a pagination and sort reset and re-renders;
`INIT` drops the loading stub and renders. -/
def handleModelEvent (updateType : UpdateType) (data : Option Task) (s : BoardState) : BoardState :=
  match updateType with
  | UpdateType.PATCH =>
    match data with
    | some t =>
      { s with
        taskPresenter := mapSet s.taskPresenter t.id t
        renderedItems := patchById s.renderedItems t }
    | none => s
  | UpdateType.MINOR => renderBoard (clearBoard false false s)
  | UpdateType.MAJOR => renderBoard (clearBoard true true s)
  | UpdateType.INIT => renderBoard { s with isLoading := false, loadingShown := false }

/-- `#handleSortTypeChange`: a no-op when the requested mode equals the current
one; otherwise sets the mode, clears with a pagination reset and re-renders. -/
def handleSortTypeChange (sortType : SortType) (s : BoardState) : BoardState :=
  if s.currentSortType = sortType then s
  else renderBoard (clearBoard true false { s with currentSortType := sortType })

/-- Modelled from the spec: `FilterModel.setFilter` (the filter model is missing
from the source tree): stores the new category and synchronously notifies its
observers — here the board presenter's `#handleModelEvent`. -/
def setFilter (updateType : UpdateType) (f : FilterType) (s : BoardState) : BoardState :=
  handleModelEvent updateType none { s with filterM := f }

/-- `createTask`: resets the sort mode to Default, forces the filter to All with
a Major update (whose notification re-renders the board), then initialises the
creation form. -/
def createTask (s : BoardState) : BoardState :=
  let s1 := { s with currentSortType := SortType.DEFAULT }
  let s2 := setFilter UpdateType.MAJOR FilterType.ALL s1
  { s2 with taskNewActive := true }

/-- `init`: the first render. -/
def initBoard (s : BoardState) : BoardState :=
  renderBoard s

/-- The state right after the presenter's constructor ran: the collection model
has not loaded yet (so its task list is empty), the filter model starts at All,
pagination starts at the base size and the sort mode at Default. -/
def initialState (now : Int) : BoardState :=
  { now := now
    modelTasks := []
    filterM := FilterType.ALL
    renderedTaskCount := TASK_COUNT_PER_STEP
    currentSortType := SortType.DEFAULT
    filterType := FilterType.ALL
    isLoading := true
    taskPresenter := []
    taskNewActive := false
    renderedItems := []
    sortShown := false
    loadingShown := false
    noTaskShown := false
    loadMoreShown := false }

/-- One observable transition of the initialised board.  The constructors embed
the external protocol the collaborators obey per the spec: the collection model
delivers `INIT` exactly once, when loading completes; task mutations notify
`MINOR`/`MAJOR`/`PATCH` only after loading, a `PATCH` replacing one task in place
without structural change to the filtered sequence and targeting a rendered
presenter; a user filter change always notifies `MAJOR`; the load-more control
only exists after loading. -/
inductive Step : BoardState → BoardState → Prop where
  | initLoad {s : BoardState} (tasks : List Task) (h : s.isLoading = true) :
      Step s (handleModelEvent UpdateType.INIT none { s with modelTasks := tasks })
  | taskMinor {s : BoardState} (tasks : List Task) (h : s.isLoading = false) :
      Step s (handleModelEvent UpdateType.MINOR none { s with modelTasks := tasks })
  | taskMajor {s : BoardState} (tasks : List Task) (h : s.isLoading = false) :
      Step s (handleModelEvent UpdateType.MAJOR none { s with modelTasks := tasks })
  | taskPatch {s : BoardState} (t : Task) (h : s.isLoading = false)
      (hmem : (s.taskPresenter.lookup t.id).isSome = true)
      (hlen : (filter s.filterM s.now (patchById s.modelTasks t)).length
        = (filter s.filterM s.now s.modelTasks).length) :
      Step s (handleModelEvent UpdateType.PATCH (some t) { s with modelTasks := patchById s.modelTasks t })
  | filterChange {s : BoardState} (f : FilterType) :
      Step s (setFilter UpdateType.MAJOR f s)
  | sortChange {s : BoardState} (sortType : SortType) :
      Step s (handleSortTypeChange sortType s)
  | loadMore {s : BoardState} (h : s.isLoading = false) :
      Step s (handleLoadMoreButtonClick s)
  | newTask {s : BoardState} :
      Step s (createTask s)

/-- The board states reachable after `init`. -/
def Reachable (now : Int) (s : BoardState) : Prop :=
  Relation.ReflTransGen Step (initBoard (initialState now)) s

/-- Modelled from the spec: the view states of the item and creation presenters
(`task-presenter.js` and `task-new-presenter.js` are missing from the source
tree). -/
inductive PresState where
  | IDLE
  | EDITING
  | SAVING
  | DELETING
  | ABORTING
deriving DecidableEq

/-- Modelled from the spec: the transient in-flight states are Saving and
Deleting — the states an item must never be left stuck in. -/
def PresState.isTransient : PresState → Bool
  | PresState.SAVING => true
  | PresState.DELETING => true
  | _ => false

/-- The externally observable calls `#handleViewAction` makes, in order: the UI
blocker's `block`, the awaited collection-model operation, and the blocker's
`unblock`. -/
inductive BEvent where
  | block
  | modelOp (a : UserAction)
  | unblock
deriving DecidableEq

/-- The outcome of the awaited collection-model operation: the promise either
resolves or rejects. -/
inductive Outcome where
  | success
  | failure
deriving DecidableEq

/-- The JavaScript exception escaping `#handleViewAction` as a rejected promise:
calling a method on the `undefined` returned by a presenter-map lookup for an id
with no presenter. -/
inductive ActionError where
  | staleRef
deriving DecidableEq

/-- The state `#handleViewAction` acts on: the view states of the item
presenters (keyed by id) and of the creation presenter, the collection model's
task list, and the trace of blocker and model calls. -/
structure AState where
  presenters : List (Nat × PresState)
  newPresState : PresState
  modelTasks : List Task
  events : List BEvent
deriving DecidableEq

/-- `Map.prototype.get` on the id-keyed presenter view-state map. -/
def lookupPres : List (Nat × PresState) → Nat → Option PresState
  | [], _ => none
  | (k, v) :: rest, id => if k = id then some v else lookupPres rest id

/-- A view-state transition (`setSaving`, `setDeleting`, `setAborting`) on the
presenter with the given id. -/
def setPresState : List (Nat × PresState) → Nat → PresState → List (Nat × PresState)
  | [], _, _ => []
  | (k, v) :: rest, id, st =>
    if k = id then (k, st) :: setPresState rest id st else (k, v) :: setPresState rest id st

/-- `#handleViewAction`, the async action router.  The awaited model operation's
outcome is a parameter; a successful operation applies the corresponding
collection change (the model's own observer notification then drives the board
re-render, embedded separately by `handleModelEvent`).  The result pairs the
exception escaping the function, if any, with the state: looking up a stale id
yields `undefined`, so the immediate method call throws before the `try` block,
skipping both the model operation and the final `unblock`. -/
def handleViewAction (actionType : UserAction) (updateType : UpdateType) (update : Task)
    (outcome : Outcome) (s : AState) : Option ActionError × AState :=
  let s0 := { s with events := s.events ++ [BEvent.block] }
  match actionType with
  | UserAction.UPDATE_TASK =>
    match lookupPres s0.presenters update.id with
    | none => (some ActionError.staleRef, s0)
    | some _ =>
      let s1 := { s0 with presenters := setPresState s0.presenters update.id PresState.SAVING }
      let s2 := { s1 with events := s1.events ++ [BEvent.modelOp UserAction.UPDATE_TASK] }
      let s3 :=
        match outcome with
        | Outcome.success => { s2 with modelTasks := patchById s2.modelTasks update }
        | Outcome.failure =>
          { s2 with presenters := setPresState s2.presenters update.id PresState.ABORTING }
      (none, { s3 with events := s3.events ++ [BEvent.unblock] })
  | UserAction.ADD_TASK =>
    let s1 := { s0 with newPresState := PresState.SAVING }
    let s2 := { s1 with events := s1.events ++ [BEvent.modelOp UserAction.ADD_TASK] }
    let s3 :=
      match outcome with
      | Outcome.success => { s2 with modelTasks := update :: s2.modelTasks }
      | Outcome.failure => { s2 with newPresState := PresState.ABORTING }
    (none, { s3 with events := s3.events ++ [BEvent.unblock] })
  | UserAction.DELETE_TASK =>
    match lookupPres s0.presenters update.id with
    | none => (some ActionError.staleRef, s0)
    | some _ =>
      let s1 := { s0 with presenters := setPresState s0.presenters update.id PresState.DELETING }
      let s2 := { s1 with events := s1.events ++ [BEvent.modelOp UserAction.DELETE_TASK] }
      let s3 :=
        match outcome with
        | Outcome.success =>
          { s2 with modelTasks := s2.modelTasks.filter (fun t => t.id ≠ update.id) }
        | Outcome.failure =>
          { s2 with presenters := setPresState s2.presenters update.id PresState.ABORTING }
      (none, { s3 with events := s3.events ++ [BEvent.unblock] })

/-- The view state of the controller that initiated an action: the creation
presenter for a Create, the item presenter of the task's id otherwise. -/
def initiatorState (actionType : UserAction) (s : AState) (id : Nat) : Option PresState :=
  match actionType with
  | UserAction.ADD_TASK => some s.newPresState
  | _ => lookupPres s.presenters id

/-- A sample task with the given id, used by the concrete scenarios. -/
def mkTask (i : Nat) : Task :=
  { id := i
    description := "task"
    dueDate := none
    repeating := []
    color := "black"
    isArchive := false
    isFavorite := false }

/-- The spec's pagination scenario: the board after `init` and the `INIT`
notification for a ten-task collection. -/
def scenario10 : BoardState :=
  handleModelEvent UpdateType.INIT none
    { initBoard (initialState 0) with modelTasks := (List.range 10).map mkTask }

/-- The board after `init` and the `INIT` notification for a two-task
collection. -/
def twoTaskBoard : BoardState :=
  handleModelEvent UpdateType.INIT none
    { initBoard (initialState 0) with modelTasks := [mkTask 0, mkTask 1] }

/-- A board in date-ascending sort mode over two tasks without due dates. -/
def dateUpBoard : BoardState :=
  { initialState 0 with
    currentSortType := SortType.DATE_UP
    modelTasks := [mkTask 0, mkTask 1]
    isLoading := false }

/-- An action state with no item presenters at all: every id is stale. -/
def emptyAState : AState :=
  { presenters := []
    newPresState := PresState.IDLE
    modelTasks := []
    events := [] }

/-- An action state with one idle item presenter for id 7. -/
def oneAState : AState :=
  { presenters := [(7, PresState.IDLE)]
    newPresState := PresState.IDLE
    modelTasks := [mkTask 7]
    events := [] }

/-- The invariant of the reachable board states: the pagination cursor is
bounded by the larger of the base pagination size and the derived sequence
length, and while the initial load is pending the collection is still empty and
the cursor still at the base size. -/
def BoardInv (s : BoardState) : Prop :=
  s.renderedTaskCount ≤ max TASK_COUNT_PER_STEP (derivedLen s)
    ∧ (s.isLoading = true → s.modelTasks = [] ∧ s.renderedTaskCount ≤ TASK_COUNT_PER_STEP)

/-- Sorting does not change the length of the sequence. -/
theorem length_applySort (st : SortType) (l : List Task) : (applySort st l).length = l.length := by
  cases st <;> simp [applySort, List.length_mergeSort]

/-- The derived visible sequence has the length of the filtered sequence. -/
theorem tasksGet_length (s : BoardState) : (tasksGet s).1.length = derivedLen s := by
  simp [tasksGet, derivedLen, length_applySort]

/-- The state returned by the `tasks` getter only records the active filter. -/
theorem tasksGet_snd (s : BoardState) : (tasksGet s).2 = { s with filterType := s.filterM } := rfl

/-- The state returned by the `tasks` getter, field by field. -/
theorem tasksGet_proj (s : BoardState) :
    (tasksGet s).2.renderedTaskCount = s.renderedTaskCount
    ∧ (tasksGet s).2.modelTasks = s.modelTasks
    ∧ (tasksGet s).2.filterM = s.filterM
    ∧ (tasksGet s).2.now = s.now
    ∧ (tasksGet s).2.isLoading = s.isLoading
    ∧ (tasksGet s).2.currentSortType = s.currentSortType
    ∧ (tasksGet s).2.renderedItems = s.renderedItems
    ∧ (tasksGet s).2.loadMoreShown = s.loadMoreShown
    ∧ (tasksGet s).2.filterType = s.filterM
    ∧ (tasksGet s).2.taskPresenter = s.taskPresenter
    ∧ (tasksGet s).2.taskNewActive = s.taskNewActive
    ∧ (tasksGet s).2.sortShown = s.sortShown :=
  ⟨rfl, rfl, rfl, rfl, rfl, rfl, rfl, rfl, rfl, rfl, rfl, rfl⟩

/-- Rendering a batch of cards leaves every field of the presenter state
unchanged except the presenter map and the rendered card list, and it appends
exactly the batch to the rendered cards. -/
theorem renderTasks_fields (ts : List Task) (s : BoardState) :
    (renderTasks s ts).renderedTaskCount = s.renderedTaskCount
    ∧ (renderTasks s ts).currentSortType = s.currentSortType
    ∧ (renderTasks s ts).modelTasks = s.modelTasks
    ∧ (renderTasks s ts).filterM = s.filterM
    ∧ (renderTasks s ts).now = s.now
    ∧ (renderTasks s ts).isLoading = s.isLoading
    ∧ (renderTasks s ts).loadMoreShown = s.loadMoreShown
    ∧ (renderTasks s ts).filterType = s.filterType
    ∧ (renderTasks s ts).renderedItems = s.renderedItems ++ ts := by
  induction ts generalizing s with
  | nil => simp [renderTasks]
  | cons t ts ih =>
    have hstep : renderTasks s (t :: ts) = renderTasks (renderTask s t) ts := rfl
    rcases ih (renderTask s t) with ⟨h1, h2, h3, h4, h5, h6, h7, h8, h9⟩
    rw [hstep]
    refine ⟨h1, h2, h3, h4, h5, h6, h7, h8, ?_⟩
    rw [h9]
    simp [renderTask]

/-- `#renderBoard` leaves the pagination cursor, the sort mode, the collection,
the active filter, the time and the loading flag unchanged, and records the
active filter in `#filterType` unless it is still loading. -/
theorem renderBoard_fields (s : BoardState) :
    (renderBoard s).renderedTaskCount = s.renderedTaskCount
    ∧ (renderBoard s).currentSortType = s.currentSortType
    ∧ (renderBoard s).modelTasks = s.modelTasks
    ∧ (renderBoard s).filterM = s.filterM
    ∧ (renderBoard s).now = s.now
    ∧ (renderBoard s).isLoading = s.isLoading
    ∧ (renderBoard s).filterType = (if s.isLoading = true then s.filterType else s.filterM) := by
  unfold renderBoard
  split
  · next h => simp [h]
  · next h =>
    simp only [Bool.not_eq_true] at h
    simp only [h, if_false]
    split
    · simp [tasksGet_snd, h]
    · rcases renderTasks_fields
        ((tasksGet s).1.take (min (tasksGet s).1.length (tasksGet s).2.renderedTaskCount))
        { (tasksGet s).2 with sortShown := true } with ⟨h1, h2, h3, h4, h5, h6, h7, h8, h9⟩
      split <;> simp_all [tasksGet_snd]

/-- `#clearBoard` leaves the collection, the active filter, the time, the
loading flag and (without the sort reset) the sort mode unchanged; it empties
the presenter map and the rendered cards, detaches the sort control, records the
active filter, and resets or clamps the pagination cursor. -/
theorem clearBoard_fields (r1 r2 : Bool) (s : BoardState) :
    (clearBoard r1 r2 s).modelTasks = s.modelTasks
    ∧ (clearBoard r1 r2 s).filterM = s.filterM
    ∧ (clearBoard r1 r2 s).now = s.now
    ∧ (clearBoard r1 r2 s).isLoading = s.isLoading
    ∧ (clearBoard r1 r2 s).taskPresenter = []
    ∧ (clearBoard r1 r2 s).renderedItems = []
    ∧ (clearBoard r1 r2 s).sortShown = false
    ∧ (clearBoard r1 r2 s).loadMoreShown = false
    ∧ (clearBoard r1 r2 s).taskNewActive = false
    ∧ (clearBoard r1 r2 s).filterType = s.filterM
    ∧ (clearBoard r1 r2 s).renderedTaskCount
        = (if r1 = true then TASK_COUNT_PER_STEP else min (derivedLen s) s.renderedTaskCount)
    ∧ (clearBoard r1 r2 s).currentSortType
        = (if r2 = true then SortType.DEFAULT else s.currentSortType) := by
  cases r1 <;> cases r2 <;>
    simp [clearBoard, tasksGet_snd, tasksGet_length, derivedLen, tasksGet, length_applySort]

/-- The derived sequence length only depends on the collection, the active
filter and the time. -/
theorem derivedLen_congr {s s2 : BoardState} (h1 : s2.modelTasks = s.modelTasks)
    (h2 : s2.filterM = s.filterM) (h3 : s2.now = s.now) : derivedLen s2 = derivedLen s := by
  unfold derivedLen
  rw [h1, h2, h3]

/-- A load-more click only grows the rendered cards and moves the pagination
cursor: the cursor becomes the derived length capped sum, exactly the newly
revealed slice is appended, and the control disappears exactly when the full
sequence is revealed. -/
theorem loadMore_fields (s : BoardState) :
    (handleLoadMoreButtonClick s).renderedTaskCount
      = min (tasksGet s).1.length (s.renderedTaskCount + TASK_COUNT_PER_STEP)
    ∧ (handleLoadMoreButtonClick s).modelTasks = s.modelTasks
    ∧ (handleLoadMoreButtonClick s).filterM = s.filterM
    ∧ (handleLoadMoreButtonClick s).now = s.now
    ∧ (handleLoadMoreButtonClick s).isLoading = s.isLoading
    ∧ (handleLoadMoreButtonClick s).renderedItems
        = s.renderedItems ++ ((tasksGet s).1.drop s.renderedTaskCount).take
            (min (tasksGet s).1.length (s.renderedTaskCount + TASK_COUNT_PER_STEP)
              - s.renderedTaskCount)
    ∧ (handleLoadMoreButtonClick s).loadMoreShown
        = (if (tasksGet s).1.length
              ≤ min (tasksGet s).1.length (s.renderedTaskCount + TASK_COUNT_PER_STEP)
            then false else s.loadMoreShown) := by
  have e : handleLoadMoreButtonClick s =
      (if (tasksGet s).1.length
            ≤ min (tasksGet s).1.length (s.renderedTaskCount + TASK_COUNT_PER_STEP) then
        { renderTasks (tasksGet s).2
            (((tasksGet s).1.drop s.renderedTaskCount).take
              (min (tasksGet s).1.length (s.renderedTaskCount + TASK_COUNT_PER_STEP)
                - s.renderedTaskCount)) with
          renderedTaskCount := min (tasksGet s).1.length (s.renderedTaskCount + TASK_COUNT_PER_STEP)
          loadMoreShown := false }
      else
        { renderTasks (tasksGet s).2
            (((tasksGet s).1.drop s.renderedTaskCount).take
              (min (tasksGet s).1.length (s.renderedTaskCount + TASK_COUNT_PER_STEP)
                - s.renderedTaskCount)) with
          renderedTaskCount :=
            min (tasksGet s).1.length (s.renderedTaskCount + TASK_COUNT_PER_STEP) }) := rfl
  rw [e]
  split <;> rename_i h <;> simp [h, renderTasks_fields, tasksGet_proj]

/-- The ascending due-date relation is transitive. -/
theorem sortTaskUp_trans (a b c : Task) (h1 : sortTaskUp a b = true)
    (h2 : sortTaskUp b c = true) : sortTaskUp a c = true := by
  unfold sortTaskUp at *
  cases ha : a.dueDate <;> cases hb : b.dueDate <;> cases hc : c.dueDate <;>
    simp_all <;> omega

/-- The ascending due-date relation is total. -/
theorem sortTaskUp_total (a b : Task) : (sortTaskUp a b || sortTaskUp b a) = true := by
  unfold sortTaskUp
  cases a.dueDate <;> cases b.dueDate <;> simp <;> omega

/-- The descending due-date relation is transitive. -/
theorem sortTaskDown_trans (a b c : Task) (h1 : sortTaskDown a b = true)
    (h2 : sortTaskDown b c = true) : sortTaskDown a c = true := by
  unfold sortTaskDown at *
  cases ha : a.dueDate <;> cases hb : b.dueDate <;> cases hc : c.dueDate <;>
    simp_all <;> omega

/-- The descending due-date relation is total. -/
theorem sortTaskDown_total (a b : Task) : (sortTaskDown a b || sortTaskDown b a) = true := by
  unfold sortTaskDown
  cases a.dueDate <;> cases b.dueDate <;> simp <;> omega

/-- Under either due-date relation, a task without a due date is below only
tasks without a due date. -/
theorem sortTask_none {a b : Task} (h : sortTaskUp a b = true ∨ sortTaskDown a b = true)
    (ha : a.dueDate = none) : b.dueDate = none := by
  cases hb : b.dueDate with
  | none => rfl
  | some d =>
    rcases h with h | h
    · simp [sortTaskUp, ha, hb] at h
    · simp [sortTaskDown, ha, hb] at h

/-- Tasks with equal due dates are related both ways by both due-date
relations. -/
theorem sortTask_refl {a b : Task} (h : a.dueDate = b.dueDate) :
    sortTaskUp a b = true ∧ sortTaskDown a b = true := by
  unfold sortTaskUp sortTaskDown
  rw [h]
  cases b.dueDate <;> simp

/-- A view-state transition on an id rewrites exactly that id's entry in the
presenter map. -/
theorem lookupPres_set (m : List (Nat × PresState)) (id : Nat) (st : PresState) :
    lookupPres (setPresState m id st) id = (lookupPres m id).map (fun _ => st) := by
  induction m with
  | nil => rfl
  | cons kv rest ih =>
    obtain ⟨k, v⟩ := kv
    by_cases hk : k = id
    · subst hk
      simp [setPresState, lookupPres]
    · simp [setPresState, lookupPres, hk, ih]

/-- C1: the `tasks` getter derives the visible sequence by filtering the full
collection with the active filter category's predicate and then applying the
active sort mode; the Default mode leaves the filtered sequence in collection
order, and the filtered sequence (and hence, up to order, the visible sequence)
contains exactly the tasks satisfying the predicate. -/
theorem derived_sequence_spec (s : BoardState) :
    (tasksGet s).1 = applySort s.currentSortType (filter s.filterM s.now s.modelTasks)
    ∧ applySort SortType.DEFAULT (filter s.filterM s.now s.modelTasks)
        = filter s.filterM s.now s.modelTasks
    ∧ (∀ t, t ∈ filter s.filterM s.now s.modelTasks
        ↔ t ∈ s.modelTasks ∧ filterPred s.filterM s.now t = true)
    ∧ (tasksGet s).1.Perm (filter s.filterM s.now s.modelTasks)
    ∧ (∀ t, t ∈ (tasksGet s).1
        ↔ t ∈ s.modelTasks ∧ filterPred s.filterM s.now t = true) := by
  refine ⟨rfl, rfl, fun t => List.mem_filter, ?_, ?_⟩
  · cases h : s.currentSortType <;>
      simp [tasksGet, applySort, h, List.mergeSort_perm, List.Perm.refl]
  · intro t
    have hp : t ∈ (tasksGet s).1 ↔ t ∈ filter s.filterM s.now s.modelTasks := by
      cases h : s.currentSortType <;> simp [tasksGet, applySort, h, List.mem_mergeSort, filter]
    rw [hp]
    exact List.mem_filter

/-- C9: whenever the getter sorts (DateAscending or DateDescending), tasks
without a due date end up after every task with a due date, and tasks with equal
sort keys (including two absent due dates) keep their relative order from the
filtered (Default) sequence. -/
theorem date_sort_spec (s : BoardState) (a b : Task)
    (hmode : s.currentSortType = SortType.DATE_UP ∨ s.currentSortType = SortType.DATE_DOWN) :
    (tasksGet s).1.Pairwise (fun x y => x.dueDate = none → y.dueDate = none)
    ∧ ([a, b].Sublist (filter s.filterM s.now s.modelTasks) → a.dueDate = b.dueDate →
        [a, b].Sublist (tasksGet s).1) := by
  have hfst : (tasksGet s).1 = applySort s.currentSortType (filter s.filterM s.now s.modelTasks) :=
    rfl
  rcases hmode with h | h <;> rw [hfst, h]
  · constructor
    · exact (List.sorted_mergeSort sortTaskUp_trans sortTaskUp_total
        (filter s.filterM s.now s.modelTasks)).imp
        (fun hxy hx => sortTask_none (Or.inl hxy) hx)
    · intro hsub heq
      exact List.sublist_mergeSort sortTaskUp_trans sortTaskUp_total
        (List.pairwise_pair.mpr (sortTask_refl heq).1) hsub
  · constructor
    · exact (List.sorted_mergeSort sortTaskDown_trans sortTaskDown_total
        (filter s.filterM s.now s.modelTasks)).imp
        (fun hxy hx => sortTask_none (Or.inr hxy) hx)
    · intro hsub heq
      exact List.sublist_mergeSort sortTaskDown_trans sortTaskDown_total
        (List.pairwise_pair.mpr (sortTask_refl heq).2) hsub

/-- C9 witness: on a concrete date-ascending board holding two tasks without due
dates, the pair keeps its order in the derived sequence and the placement
property holds. -/
theorem date_sort_spec_witness :
    [mkTask 0, mkTask 1].Sublist (tasksGet dateUpBoard).1
    ∧ (tasksGet dateUpBoard).1.Pairwise (fun x y => x.dueDate = none → y.dueDate = none) :=
  ⟨(date_sort_spec dateUpBoard (mkTask 0) (mkTask 1) (Or.inl rfl)).2 (by decide) rfl,
    (date_sort_spec dateUpBoard (mkTask 0) (mkTask 1) (Or.inl rfl)).1⟩

/-- C10: the card template inserts the task description exactly once, through
the entity encoder; the surrounding markup does not depend on the
description. -/
theorem description_escaped_spec (now : Int) (task : Task) :
    createTaskTemplate now task
      = cardPre now task ++ (heEncode task.description ++ cardSuf task)
    ∧ (∀ d, cardPre now { task with description := d } = cardPre now task)
    ∧ (∀ d, cardSuf { task with description := d } = cardSuf task) := by
  refine ⟨?_, fun d => rfl, fun d => rfl⟩
  simp [createTaskTemplate, cardPre, cardSuf, String.append_assoc]

/-- C2 counterexample: a stale Update on a board with no item presenters is not
a graceful no-op — the member access on the missing presenter throws, and the
exception escapes `handleViewAction`. -/
theorem stale_reference_counterexample :
    (handleViewAction UserAction.UPDATE_TASK UpdateType.PATCH (mkTask 7) Outcome.failure
        emptyAState).1 = some ActionError.staleRef
    ∧ (handleViewAction UserAction.UPDATE_TASK UpdateType.PATCH (mkTask 7) Outcome.failure
        emptyAState).1 ≠ none := by
  decide

/-- C2 amended: for a stale Update or Delete, no model operation is invoked and
the collection and presenter map are untouched, but the action is not logged and
is not a no-op: the lookup's `undefined` receiver throws a TypeError that
escapes `handleViewAction` (leaving the UI blocker engaged, with only `block` in
the trace). -/
theorem stale_reference_amended (actionType : UserAction) (updateType : UpdateType)
    (update : Task) (outcome : Outcome) (s : AState)
    (ha : actionType = UserAction.UPDATE_TASK ∨ actionType = UserAction.DELETE_TASK)
    (h : lookupPres s.presenters update.id = none) :
    handleViewAction actionType updateType update outcome s
      = (some ActionError.staleRef, { s with events := s.events ++ [BEvent.block] }) := by
  rcases ha with ha | ha <;> subst ha <;> simp [handleViewAction, h]

/-- C2 amended witness: the stale Delete on the presenter-less state. -/
theorem stale_reference_amended_witness :
    handleViewAction UserAction.DELETE_TASK UpdateType.MINOR (mkTask 7) Outcome.success emptyAState
      = (some ActionError.staleRef, { emptyAState with events := [BEvent.block] }) :=
  stale_reference_amended UserAction.DELETE_TASK UpdateType.MINOR (mkTask 7) Outcome.success
    emptyAState (Or.inr rfl) rfl

/-- C3 counterexample: on a stale Delete the blocker is engaged but
`handleViewAction` ends without ever calling `unblock`. -/
theorem blocker_discipline_counterexample :
    BEvent.block ∈ (handleViewAction UserAction.DELETE_TASK UpdateType.MINOR (mkTask 9)
        Outcome.success emptyAState).2.events
    ∧ BEvent.unblock ∉ (handleViewAction UserAction.DELETE_TASK UpdateType.MINOR (mkTask 9)
        Outcome.success emptyAState).2.events := by
  decide

/-- C3 amended: whenever the target presenter exists (and always for Create),
`handleViewAction` calls `block` first, then the model operation, then
`unblock`, whether the operation succeeds or fails, and no exception escapes;
only the stale-reference path returns without `unblock`. -/
theorem blocker_discipline_amended (actionType : UserAction) (updateType : UpdateType)
    (update : Task) (outcome : Outcome) (s : AState)
    (h : actionType = UserAction.ADD_TASK ∨ (lookupPres s.presenters update.id).isSome = true) :
    (handleViewAction actionType updateType update outcome s).1 = none
    ∧ (handleViewAction actionType updateType update outcome s).2.events
        = s.events ++ [BEvent.block, BEvent.modelOp actionType, BEvent.unblock] := by
  cases actionType with
  | ADD_TASK => cases outcome <;> simp [handleViewAction]
  | UPDATE_TASK =>
    rcases h with h | h
    · simp at h
    · obtain ⟨v, hv⟩ := Option.isSome_iff_exists.mp h
      cases outcome <;> simp [handleViewAction, hv]
  | DELETE_TASK =>
    rcases h with h | h
    · simp at h
    · obtain ⟨v, hv⟩ := Option.isSome_iff_exists.mp h
      cases outcome <;> simp [handleViewAction, hv]

/-- C3 amended witness: a successful Update on a board with one presenter
produces the block, operation, unblock trace. -/
theorem blocker_discipline_amended_witness :
    (handleViewAction UserAction.UPDATE_TASK UpdateType.PATCH (mkTask 7) Outcome.success
        oneAState).1 = none
    ∧ (handleViewAction UserAction.UPDATE_TASK UpdateType.PATCH (mkTask 7) Outcome.success
        oneAState).2.events
      = oneAState.events
          ++ [BEvent.block, BEvent.modelOp UserAction.UPDATE_TASK, BEvent.unblock] :=
  blocker_discipline_amended UserAction.UPDATE_TASK UpdateType.PATCH (mkTask 7) Outcome.success
    oneAState (Or.inr (by decide))

/-- C5: when the awaited model operation rejects, the initiating controller (the
item presenter of the task's id, or the creation presenter for Create) is put
into Aborting — a non-transient state — and the task collection is left exactly
as it was. -/
theorem failure_rollback_spec (actionType : UserAction) (updateType : UpdateType)
    (update : Task) (s : AState)
    (h : actionType = UserAction.ADD_TASK ∨ (lookupPres s.presenters update.id).isSome = true) :
    (handleViewAction actionType updateType update Outcome.failure s).2.modelTasks = s.modelTasks
    ∧ initiatorState actionType
        (handleViewAction actionType updateType update Outcome.failure s).2 update.id
      = some PresState.ABORTING
    ∧ PresState.isTransient PresState.ABORTING = false := by
  cases actionType with
  | ADD_TASK => exact ⟨rfl, rfl, rfl⟩
  | UPDATE_TASK =>
    rcases h with h | h
    · simp at h
    · obtain ⟨v, hv⟩ := Option.isSome_iff_exists.mp h
      refine ⟨?_, ?_, rfl⟩ <;>
        simp [handleViewAction, hv, initiatorState, lookupPres_set]
  | DELETE_TASK =>
    rcases h with h | h
    · simp at h
    · obtain ⟨v, hv⟩ := Option.isSome_iff_exists.mp h
      refine ⟨?_, ?_, rfl⟩ <;>
        simp [handleViewAction, hv, initiatorState, lookupPres_set]

/-- C5 witness: a failed Delete on a board with one presenter leaves the
collection unchanged and ends with that presenter Aborting. -/
theorem failure_rollback_spec_witness :
    (handleViewAction UserAction.DELETE_TASK UpdateType.MINOR (mkTask 7) Outcome.failure
        oneAState).2.modelTasks = oneAState.modelTasks
    ∧ initiatorState UserAction.DELETE_TASK
        (handleViewAction UserAction.DELETE_TASK UpdateType.MINOR (mkTask 7) Outcome.failure
          oneAState).2 (mkTask 7).id
      = some PresState.ABORTING
    ∧ PresState.isTransient PresState.ABORTING = false :=
  failure_rollback_spec UserAction.DELETE_TASK UpdateType.MINOR (mkTask 7) oneAState
    (Or.inr (by decide))

/-- C6: a Minor notification clears the board (dropping every item presenter,
the rendered cards and the sort control), clamps the pagination cursor to the
new derived length without ever increasing it, keeps the sort mode, and
re-renders. -/
theorem minor_notification_spec (d : Option Task) (s : BoardState) :
    handleModelEvent UpdateType.MINOR d s = renderBoard (clearBoard false false s)
    ∧ (clearBoard false false s).taskPresenter = []
    ∧ (clearBoard false false s).renderedItems = []
    ∧ (clearBoard false false s).sortShown = false
    ∧ (clearBoard false false s).renderedTaskCount = min (derivedLen s) s.renderedTaskCount
    ∧ (clearBoard false false s).renderedTaskCount ≤ s.renderedTaskCount
    ∧ (clearBoard false false s).currentSortType = s.currentSortType
    ∧ (handleModelEvent UpdateType.MINOR d s).currentSortType = s.currentSortType := by
  rcases clearBoard_fields false false s with
    ⟨c1, c2, c3, c4, c5, c6, c7, c8, c9, c10, c11, c12⟩
  simp only [Bool.false_eq_true, if_false] at c11 c12
  refine ⟨rfl, c5, c6, c7, c11, ?_, c12, ?_⟩
  · rw [c11]
    exact Nat.min_le_right _ _
  · have r2 := (renderBoard_fields (clearBoard false false s)).2.1
    rw [show handleModelEvent UpdateType.MINOR d s = renderBoard (clearBoard false false s)
      from rfl, r2, c12]

/-- C7: a load-more click moves the pagination cursor up by the fixed step,
capped at the derived length, renders exactly the newly revealed slice, and the
control is removed exactly when the cursor reaches the derived length; on the
concrete ten-task board the initial render shows eight cards plus the control
and one click reveals all ten and removes it. -/
theorem load_more_spec (s : BoardState) :
    (handleLoadMoreButtonClick s).renderedTaskCount
      = min (tasksGet s).1.length (s.renderedTaskCount + TASK_COUNT_PER_STEP)
    ∧ (handleLoadMoreButtonClick s).renderedTaskCount ≤ (tasksGet s).1.length
    ∧ (handleLoadMoreButtonClick s).renderedItems
        = s.renderedItems ++ ((tasksGet s).1.drop s.renderedTaskCount).take
            (min (tasksGet s).1.length (s.renderedTaskCount + TASK_COUNT_PER_STEP)
              - s.renderedTaskCount)
    ∧ (handleLoadMoreButtonClick s).loadMoreShown
        = (if (tasksGet s).1.length
              ≤ min (tasksGet s).1.length (s.renderedTaskCount + TASK_COUNT_PER_STEP)
            then false else s.loadMoreShown)
    ∧ scenario10.renderedItems.length = 8
    ∧ scenario10.loadMoreShown = true
    ∧ scenario10.renderedTaskCount = 8
    ∧ (handleLoadMoreButtonClick scenario10).renderedItems.length = 10
    ∧ (handleLoadMoreButtonClick scenario10).renderedTaskCount = 10
    ∧ (handleLoadMoreButtonClick scenario10).loadMoreShown = false := by
  rcases loadMore_fields s with ⟨h1, h2, h3, h4, h5, h6, h7⟩
  refine ⟨h1, ?_, h6, h7, by decide, by decide, by decide, by decide, by decide, by decide⟩
  rw [h1]
  exact Nat.min_le_left _ _

/-- C8: `createTask` sets the sort mode to Default and forces the filter to All
through the filter model with a Major update (which re-renders) before opening
the creation form, so the form opens with Default sort and the All filter
active. -/
theorem create_task_spec (s : BoardState) :
    createTask s
      = { setFilter UpdateType.MAJOR FilterType.ALL { s with currentSortType := SortType.DEFAULT }
          with taskNewActive := true }
    ∧ (createTask s).currentSortType = SortType.DEFAULT
    ∧ (createTask s).filterM = FilterType.ALL
    ∧ (createTask s).filterType = FilterType.ALL
    ∧ (createTask s).taskNewActive = true := by
  have e : createTask s
      = { renderBoard (clearBoard true true
            { s with currentSortType := SortType.DEFAULT, filterM := FilterType.ALL })
          with taskNewActive := true } := rfl
  rcases clearBoard_fields true true
      { s with currentSortType := SortType.DEFAULT, filterM := FilterType.ALL } with
    ⟨c1, c2, c3, c4, c5, c6, c7, c8, c9, c10, c11, c12⟩
  rcases renderBoard_fields (clearBoard true true
      { s with currentSortType := SortType.DEFAULT, filterM := FilterType.ALL }) with
    ⟨r1, r2, r3, r4, r5, r6, r7⟩
  refine ⟨rfl, ?_, ?_, ?_, rfl⟩ <;> simp [e, r2, r4, r7, c2, c10, c12]

/-- The invariant holds right after `init`. -/
theorem boardInv_init (now : Int) : BoardInv (initBoard (initialState now)) := by
  constructor <;>
    simp [BoardInv, initBoard, renderBoard, initialState, derivedLen, filter,
      TASK_COUNT_PER_STEP]

/-- Clearing and re-rendering establishes the invariant, for any flags, provided
a still-loading board has an empty collection and (unless the pagination is
being reset) a cursor at most the base size. -/
theorem boardInv_clearRender (b1 b2 : Bool) (s1 : BoardState)
    (hl : s1.isLoading = true →
      s1.modelTasks = [] ∧ (b1 = true ∨ s1.renderedTaskCount ≤ TASK_COUNT_PER_STEP)) :
    BoardInv (renderBoard (clearBoard b1 b2 s1)) := by
  rcases clearBoard_fields b1 b2 s1 with ⟨c1, c2, c3, c4, c5, c6, c7, c8, c9, c10, c11, c12⟩
  rcases renderBoard_fields (clearBoard b1 b2 s1) with ⟨r1, r2, r3, r4, r5, r6, r7⟩
  have hdl : derivedLen (renderBoard (clearBoard b1 b2 s1)) = derivedLen s1 :=
    derivedLen_congr (by rw [r3, c1]) (by rw [r4, c2]) (by rw [r5, c3])
  constructor
  · rw [r1, c11, hdl]
    cases b1
    · simp only [Bool.false_eq_true, if_false]
      exact le_trans (Nat.min_le_left _ _) (Nat.le_max_right _ _)
    · simp only [if_true]
      exact Nat.le_max_left _ _
  · intro hld
    rw [r6, c4] at hld
    obtain ⟨hmt, hb⟩ := hl hld
    refine ⟨by rw [r3, c1, hmt], ?_⟩
    rw [r1, c11]
    rcases hb with hb | hb
    · rw [hb]
      simp
    · cases b1
      · simp only [Bool.false_eq_true, if_false]
        exact le_trans (Nat.min_le_right _ _) hb
      · simp

/-- Every transition of the initialised board preserves the invariant. -/
theorem boardInv_step {s s2 : BoardState} (hInv : BoardInv s) (hs : Step s s2) : BoardInv s2 := by
  obtain ⟨hrc, hload⟩ := hInv
  cases hs with
  | initLoad ts h =>
    obtain ⟨hmt, hrc8⟩ := hload h
    rcases renderBoard_fields
        { s with modelTasks := ts, isLoading := false, loadingShown := false } with
      ⟨r1, r2, r3, r4, r5, r6, r7⟩
    constructor
    · rw [show handleModelEvent UpdateType.INIT none { s with modelTasks := ts }
          = renderBoard { s with modelTasks := ts, isLoading := false, loadingShown := false }
        from rfl, r1]
      exact le_trans hrc8 (Nat.le_max_left _ _)
    · intro hld
      rw [show handleModelEvent UpdateType.INIT none { s with modelTasks := ts }
          = renderBoard { s with modelTasks := ts, isLoading := false, loadingShown := false }
        from rfl, r6] at hld
      simp at hld
  | taskMinor ts h =>
    refine boardInv_clearRender false false { s with modelTasks := ts } ?_
    intro hld
    rw [show ({ s with modelTasks := ts } : BoardState).isLoading = s.isLoading from rfl, h] at hld
    simp at hld
  | taskMajor ts h =>
    refine boardInv_clearRender true true { s with modelTasks := ts } ?_
    intro hld
    rw [show ({ s with modelTasks := ts } : BoardState).isLoading = s.isLoading from rfl, h] at hld
    simp at hld
  | taskPatch t h hmem hlen =>
    constructor
    · show s.renderedTaskCount
        ≤ max TASK_COUNT_PER_STEP (filter s.filterM s.now (patchById s.modelTasks t)).length
      rw [hlen]
      exact hrc
    · intro hld
      rw [show (handleModelEvent UpdateType.PATCH (some t)
            { s with modelTasks := patchById s.modelTasks t }).isLoading = s.isLoading
        from rfl, h] at hld
      simp at hld
  | filterChange f =>
    refine boardInv_clearRender true true { s with filterM := f } ?_
    intro hld
    obtain ⟨hmt, _⟩ := hload hld
    exact ⟨hmt, Or.inl rfl⟩
  | sortChange st =>
    unfold handleSortTypeChange
    split
    · exact ⟨hrc, hload⟩
    · refine boardInv_clearRender true false { s with currentSortType := st } ?_
      intro hld
      obtain ⟨hmt, _⟩ := hload hld
      exact ⟨hmt, Or.inl rfl⟩
  | loadMore h =>
    rcases loadMore_fields s with ⟨h1, h2, h3, h4, h5, h6, h7⟩
    constructor
    · rw [derivedLen_congr h2 h3 h4, h1, tasksGet_length]
      exact le_trans (Nat.min_le_left _ _) (Nat.le_max_right _ _)
    · intro hld
      rw [h5, h] at hld
      simp at hld
  | newTask =>
    refine boardInv_clearRender true true
      { s with currentSortType := SortType.DEFAULT, filterM := FilterType.ALL } ?_
    intro hld
    obtain ⟨hmt, _⟩ := hload hld
    exact ⟨hmt, Or.inl rfl⟩

/-- C4 (amended): in every reachable board state after `init`, the pagination
cursor is bounded by the larger of the base pagination size and the derived
sequence length, and immediately after a Major reset it never exceeds the base
pagination size. -/
theorem rendered_count_invariant_spec :
    (∀ (now : Int) (s : BoardState), Reachable now s →
      s.renderedTaskCount ≤ max TASK_COUNT_PER_STEP (derivedLen s))
    ∧ (∀ (d : Option Task) (s : BoardState),
        (handleModelEvent UpdateType.MAJOR d s).renderedTaskCount ≤ TASK_COUNT_PER_STEP) := by
  constructor
  · intro now s hr
    have hinv : BoardInv s := by
      induction hr with
      | refl => exact boardInv_init now
      | tail hsteps hstep ih => exact boardInv_step ih hstep
    exact hinv.1
  · intro d s
    have r1 := (renderBoard_fields (clearBoard true true s)).1
    have c11 := (clearBoard_fields true true s).2.2.2.2.2.2.2.2.2.2.1
    rw [show handleModelEvent UpdateType.MAJOR d s = renderBoard (clearBoard true true s)
      from rfl, r1, c11]
    simp

/-- C4 witness: the bound holds at the freshly initialised board. -/
theorem rendered_count_invariant_spec_witness :
    (initBoard (initialState 0)).renderedTaskCount
      ≤ max TASK_COUNT_PER_STEP (derivedLen (initBoard (initialState 0))) :=
  rendered_count_invariant_spec.1 0 (initBoard (initialState 0)) Relation.ReflTransGen.refl

/-- C4 counterexample: after `init` and the initial load of a two-task
collection the board is reachable, yet the cursor (still at the base size 8)
exceeds the derived sequence length 2. -/
theorem rendered_count_counterexample :
    Reachable 0 twoTaskBoard
    ∧ (tasksGet twoTaskBoard).1.length < twoTaskBoard.renderedTaskCount :=
  ⟨Relation.ReflTransGen.single (Step.initLoad [mkTask 0, mkTask 1] rfl), by decide⟩

end TaskManager
